import Mathlib

/-
Verification of the velodyne_puck packet decoder
(src/velodyne_puck_decoder/src/velodyne_puck_decoder.cpp).

Embedding conventions.

Numbers: the C++ code computes with IEEE doubles.  Every quantity the
decoder computes or branches on (azimuths, distances, times) is modelled
here with exact arithmetic over the integers, in the following fixed
units, each a positive rescaling of the source's unit:

- Angles are measured in units of 1/48 of a hundredth of a degree.  The
  source's rawAzimuthToDouble multiplies the raw count (hundredths of a
  degree) by the positive real pi / 18000 to obtain radians; here it
  multiplies by 48.  Every azimuth operation in the decoder is affine
  (subtraction, adding 2*pi, halving a difference, comparison, scaling by
  a dimensionless ratio), so it commutes with the unit change.  The full
  circle 2*pi is the constant twoPi = 48 * 36000 = 1728000.  In this unit
  every division the decoder performs is exact: block azimuths are
  multiples of 48, so the interpolation's halved difference is an
  integer multiple of 24, and the per-channel refinement divides a
  multiple of 24 * 2304 by 55296 = 24 * 2304.  Exact divisions agree in
  every integer-division convention, so Int division introduces no
  rounding anywhere.
- Distances are measured in units of 2 mm, the source's raw distance
  resolution, so a raw count converts with resolution 1.
- Times are measured in nanoseconds, making the two firing-cycle
  constants integers.

The trigonometric functions sin and cos of the C math library are kept
abstract (fields sinA, cosA of Env below); they absorb the angle unit.

Buffers: the callback receives a byte array (msg->data).  A delivered
buffer is modelled as its length together with a total index-to-byte
function; the decoder never consults the length, mirroring the source,
which reinterprets the array with no length check.

The fixed constants, the scan-altitude table, rawAzimuthToDouble and
isPointInRange live in the header velodyne_puck_decoder.h, which is not
among the provided sources; those definitions are modelled from the spec
and are marked as such in their doc comments.
-/

namespace VelodynePuck

/-- Number of blocks in one raw packet (12).  Modelled from the spec:
the fixed-size buffer contains 12 blocks. -/
def BLOCKS_PER_PACKET : ℕ := 12

/-- Firings per block (2).  Modelled from the spec: each block covers
2 firings times 16 channels. -/
def FIRINGS_PER_BLOCK : ℕ := 2

/-- Firings per packet (24).  Modelled from the spec: 12 blocks with
2 firings each. -/
def FIRINGS_PER_PACKET : ℕ := 24

/-- Channels (scans) per firing (16).  Modelled from the spec. -/
def SCANS_PER_FIRING : ℕ := 16

/-- Bytes per channel-data triplet: 2-byte distance plus 1-byte
intensity.  Modelled from the spec. -/
def RAW_SCAN_SIZE : ℕ := 3

/-- Bytes in one block: 2-byte header, 2-byte azimuth, 32 triplets.
Modelled from the spec. -/
def BLOCK_SIZE : ℕ := 100

/-- The expected total buffer size: 12 blocks of 100 bytes plus a 6-byte
tail (timestamp and factory bytes, unread by the decoder).  Modelled from
the spec: sized to exactly 12 blocks, e.g. 1206 bytes. -/
def PACKET_SIZE : ℕ := 1206

/-- The fixed bank marker every block header must equal.  Modelled from
the spec (fixed bank marker); the numeric value is the VLP-16 upper-bank
flag 0xeeff. -/
def UPPER_BANK : ℕ := 0xeeff

/-- Raw-distance-to-model-units factor.  Modelled from the spec: distance
is scaled from raw units by a fixed resolution of 0.002 m; in our 2 mm
distance unit the factor is 1. -/
def DISTANCE_RESOLUTION : ℤ := 1

/-- Time between two successive channels within a firing
(CHANNEL_INTERVAL in the spec).  Modelled from the spec: a fixed constant
derived from the firing cycle; value is the VLP-16 single-channel
interval, 2.304 us, in nanoseconds. -/
def DSR_TOFFSET : ℤ := 2304

/-- Time between two successive firings (FIRING_INTERVAL in the spec).
Modelled from the spec: a fixed constant derived from the firing cycle;
value is the VLP-16 firing interval, 55.296 us, in nanoseconds. -/
def FIRING_TOFFSET : ℤ := 55296

/-- The full circle.  The source uses 2*M_PI radians; in our angle unit
this is 48 * 36000. -/
def twoPi : ℤ := 1728000

/-- Modelled from the spec: the raw 2-byte azimuth is hundredths of a
degree, scaled to radians on read.  In our angle unit the conversion
multiplies the raw count by 48. -/
def rawAzimuthToDouble (raw : ℕ) : ℤ := 48 * (raw : ℤ)

/-- A delivered message buffer: its length and its bytes.  The byte
function is total; a read past the delivered length (undefined behaviour
in the C source) returns whatever the function yields there, and no
theorem below depends on such bytes. -/
structure Buffer where
  size : ℕ
  byte : ℕ → ℕ

/-- One block, as laid out on the wire: 2-byte header, 2-byte rotation
(raw azimuth) and 96 data bytes (32 triplets), indexed by the data
function. -/
structure RawBlock where
  header : ℕ
  rotation : ℕ
  data : ℕ → ℕ

/-- Reading block b of the byte buffer, mirroring the wire layout used by
the C reinterpretation of the buffer as a RawPacket struct: little-endian
2-byte header and rotation at block offset BLOCK_SIZE * b, then the 96
data bytes. -/
def readBlock (bs : Buffer) (b : ℕ) : RawBlock :=
  { header := bs.byte (BLOCK_SIZE * b) + 256 * bs.byte (BLOCK_SIZE * b + 1)
    rotation := bs.byte (BLOCK_SIZE * b + 2) + 256 * bs.byte (BLOCK_SIZE * b + 3)
    data := fun k => bs.byte (BLOCK_SIZE * b + 4 + k) }

/-- A parsed raw packet: its blocks (only indices below
BLOCKS_PER_PACKET are ever read).  The 6 tail bytes are never read by the
decoder. -/
structure RawPacket where
  blocks : ℕ → RawBlock

/-- The cast at line 164 of the source: the message byte buffer is
reinterpreted as a RawPacket.  There is no length check anywhere on this
path. -/
def readPacket (bs : Buffer) : RawPacket :=
  ⟨fun b => readBlock bs b⟩

/-- checkPacketValidity (source lines 72-81): every block header must
equal UPPER_BANK; the first mismatch invalidates the whole packet (and is
reported with ROS_WARN, modelled by the warned flag of StepResult). -/
def checkPacketValidity (p : RawPacket) : Bool :=
  (List.range BLOCKS_PER_PACKET).all (fun b => (p.blocks b).header == UPPER_BANK)

/-- Block azimuth, converted on read (source line 95). -/
def blockAzimuth (p : RawPacket) (b : ℕ) : ℤ :=
  rawAzimuthToDouble (p.blocks b).rotation

/-- The azimuth a firing receives in the first loop of decodePacket
(source lines 93-97): firing i takes block (i / 2)'s azimuth.  Only even
i are written by that loop; the interpolation below reads even indices
only. -/
def firingAzimuthEven (p : RawPacket) (i : ℕ) : ℤ :=
  blockAzimuth p (i / 2)

/-- The firing azimuth after the interpolation loop of decodePacket
(source lines 99-118).  Even firings keep the block azimuth.  An odd
firing i interpolates between its even neighbours i-1 and i+1, except the
last firing (i = 23) which uses i-3 = 20 and i-1 = 22; the difference is
lifted by twoPi when negative and the result is wrapped below twoPi.
The halved difference is exact: both operands are multiples of 48. -/
def firingAzimuth (p : RawPacket) (i : ℕ) : ℤ :=
  if i % 2 = 0 then firingAzimuthEven p i
  else
    let lfir := if i = FIRINGS_PER_PACKET - 1 then i - 3 else i - 1
    let rfir := if i = FIRINGS_PER_PACKET - 1 then i - 1 else i + 1
    let azimuth_diff0 := firingAzimuthEven p rfir - firingAzimuthEven p lfir
    let azimuth_diff :=
      if azimuth_diff0 < 0 then azimuth_diff0 + twoPi else azimuth_diff0
    let v := firingAzimuthEven p (i - 1) + azimuth_diff / 2
    if v > twoPi then v - twoPi else v

/-- The adjacent-firing azimuth difference used for the per-channel
refinement (source lines 127-133): the next firing if one exists in the
packet, otherwise the previous one. -/
def azimuthDiffAt (p : RawPacket) (i : ℕ) : ℤ :=
  if i < FIRINGS_PER_PACKET - 1 then firingAzimuth p (i + 1) - firingAzimuth p i
  else firingAzimuth p i - firingAzimuth p (i - 1)

/-- The block holding firing i (block index i / 2). -/
def blockOf (p : RawPacket) (i : ℕ) : RawBlock :=
  p.blocks (i / FIRINGS_PER_BLOCK)

/-- Byte offset of channel c of firing i inside its block's data
(source lines 136-137). -/
def channelByteIndex (i : ℕ) (c : Fin 16) : ℕ :=
  RAW_SCAN_SIZE * (SCANS_PER_FIRING * (i % FIRINGS_PER_BLOCK) + c.val)

/-- Per-channel refined azimuth (source lines 140-141): the firing
azimuth plus the fraction (channel index * DSR_TOFFSET / FIRING_TOFFSET)
of the adjacent-firing difference.  The source computes the dimensionless
ratio first in real arithmetic; here the products are taken first so that
the single division stays exact in the integers (FIRING_TOFFSET =
24 * DSR_TOFFSET divides the product because every azimuth difference is
a multiple of 24 in our angle unit). -/
def channelAzimuth (p : RawPacket) (i : ℕ) (c : Fin 16) : ℤ :=
  firingAzimuth p i + (c.val : ℤ) * DSR_TOFFSET * azimuthDiffAt p i / FIRING_TOFFSET

/-- Per-channel distance (source lines 144-148): little-endian 2-byte raw
distance scaled by DISTANCE_RESOLUTION. -/
def channelDistance (p : RawPacket) (i : ℕ) (c : Fin 16) : ℤ :=
  (((blockOf p i).data (channelByteIndex i c) +
    256 * (blockOf p i).data (channelByteIndex i c + 1) : ℕ) : ℤ) *
    DISTANCE_RESOLUTION

/-- Per-channel intensity (source lines 151-152). -/
def channelIntensity (p : RawPacket) (i : ℕ) (c : Fin 16) : ℤ :=
  (((blockOf p i).data (channelByteIndex i c + 2) : ℕ) : ℤ)

/-- One decoded firing: its azimuth and the per-channel azimuth,
distance and intensity. -/
structure Firing where
  firing_azimuth : ℤ
  azimuth : Fin 16 → ℤ
  distance : Fin 16 → ℤ
  intensity : Fin 16 → ℤ

/-- decodePacket (source lines 90-157), per firing. -/
def decodeFiring (p : RawPacket) (i : ℕ) : Firing :=
  { firing_azimuth := firingAzimuth p i
    azimuth := fun c => channelAzimuth p i c
    distance := fun c => channelDistance p i c
    intensity := fun c => channelIntensity p i c }

/-- The decoder's environment: the two range parameters (in the 2 mm
distance unit), the C math library's sin and cos kept abstract, and the
fixed scan-altitude sine/cosine tables.  The tables are modelled from the
spec: the ChannelGeometryTable is fixed data from the missing header. -/
structure Env where
  min_range : ℤ
  max_range : ℤ
  sinA : ℤ → ℤ
  cosA : ℤ → ℤ
  sin_scan_altitude : Fin 16 → ℤ
  cos_scan_altitude : Fin 16 → ℤ

/-- Modelled from the spec: a measurement is kept exactly when its
distance is neither below min_range nor above max_range. -/
def isPointInRange (env : Env) (distance : ℤ) : Bool :=
  decide (env.min_range ≤ distance) && decide (distance ≤ env.max_range)

/-- One output point (VelodynePuckPoint): time offset, output-frame
coordinates, azimuth, distance, intensity. -/
structure Point where
  time : ℤ
  x : ℤ
  y : ℤ
  z : ℤ
  azimuth : ℤ
  distance : ℤ
  intensity : ℤ
deriving DecidableEq

/-- A sweep: one point list per physical channel. -/
def Sweep : Type := Fin 16 → List Point

def emptySweep : Sweep := fun _ => []

/-- The raw-to-physical channel remapping (source lines 221 and 276):
even raw channels map to idx/2, odd ones to idx/2 + 8. -/
def remapChannel (c : Fin 16) : Fin 16 :=
  if c.val % 2 = 0 then ⟨c.val / 2, by have := c.isLt; omega⟩
  else ⟨c.val / 2 + 8, by have := c.isLt; omega⟩

/-- Assembly of one output point (source lines 204-235): native-frame
x, y, z from distance, scan altitude and channel azimuth; output frame
x := y, y := -x, z := z; time from the packet start time, the firing
index and the raw channel index. -/
def mkPoint (env : Env) (f : Firing) (fir_idx : ℕ) (scan_idx : Fin 16) (pst : ℤ) : Point :=
  let x := f.distance scan_idx * env.cos_scan_altitude scan_idx * env.sinA (f.azimuth scan_idx)
  let y := f.distance scan_idx * env.cos_scan_altitude scan_idx * env.cosA (f.azimuth scan_idx)
  let z := f.distance scan_idx * env.sin_scan_altitude scan_idx
  { time := pst + FIRING_TOFFSET * (fir_idx : ℤ) + DSR_TOFFSET * (scan_idx.val : ℤ)
    x := y
    y := -x
    z := z
    azimuth := f.azimuth scan_idx
    distance := f.distance scan_idx
    intensity := f.intensity scan_idx }

/-- The body of the per-channel loop (source lines 200-236): skip the
channel if its distance is out of range, otherwise append the assembled
point to the remapped channel's list. -/
def appendChannel (env : Env) (f : Firing) (fir_idx : ℕ) (pst : ℤ)
    (sw : Sweep) (c : Fin 16) : Sweep :=
  if isPointInRange env (f.distance c) then
    Function.update sw (remapChannel c)
      (sw (remapChannel c) ++ [mkPoint env f fir_idx c pst])
  else sw

/-- All 16 channels of one firing. -/
def appendFiring (env : Env) (f : Firing) (fir_idx : ℕ) (pst : ℤ) (sw : Sweep) : Sweep :=
  (List.finRange 16).foldl (appendChannel env f fir_idx pst) sw

/-- The point-assembly loop over firings a, a+1, ..., b-1 (the two
duplicated loops of the source, lines 199-237 and 254-292, are this one
operation invoked with different bounds).  All points of a segment use
the same packet start time. -/
def appendPoints (env : Env) (fr : ℕ → Firing) (a b : ℕ) (pst : ℤ) (sw : Sweep) : Sweep :=
  (List.range' a (b - a)).foldl (fun acc i => appendFiring env (fr i) i pst acc) sw

/-- Decoder state persisting across packets (source constructor,
lines 23-33): the first-sweep flag, the last azimuth seen, the elapsed
time within the current sweep and the current sweep buffer.  The unused
member sweep_start_time is omitted: the decode path never reads it. -/
structure DecoderState where
  is_first_sweep : Bool
  last_azimuth : ℤ
  packet_start_time : ℤ
  sweep_data : Sweep

/-- A freshly constructed decoder. -/
def initState : DecoderState :=
  { is_first_sweep := true
    last_azimuth := 0
    packet_start_time := 0
    sweep_data := emptySweep }

/-- One accumulation segment followed by the packet_start_time advance
(source lines 199-239 and 254-294). -/
def appendSegment (env : Env) (fr : ℕ → Firing) (a b : ℕ) (s : DecoderState) : DecoderState :=
  { s with
    sweep_data := appendPoints env fr a b s.packet_start_time s.sweep_data
    packet_start_time := s.packet_start_time + FIRING_TOFFSET * ((b - a : ℕ) : ℤ) }

/-- The wraparound scan (source lines 173-180), a do-while loop: starting
at firing index i with fuel iterations left, stop at the first firing
whose azimuth is below the running last azimuth, otherwise take that
azimuth as the new last azimuth and advance. -/
def scanGo (az : ℕ → ℤ) : ℕ → ℕ → ℤ → ℕ × ℤ
  | 0, i, la => (i, la)
  | fuel + 1, i, la =>
    if az i < la then (i, la)
    else
      if i + 1 < FIRINGS_PER_PACKET then scanGo az fuel (i + 1) (az i)
      else (i + 1, az i)

/-- The full scan from firing 0; returns the first wraparound index
(FIRINGS_PER_PACKET when none) and the updated last azimuth. -/
def scanFrom (az : ℕ → ℤ) (la : ℤ) : ℕ × ℤ :=
  scanGo az FIRINGS_PER_PACKET 0 la

/-- The outcome of one packetCallback invocation: the new decoder state,
the sweeps handed to the output collaborator (publishes), and whether an
invalid-packet warning was reported. -/
structure StepResult where
  state : DecoderState
  sweeps : List Sweep
  warned : Bool

/-- packetCallback (source lines 160-298).  The buffer is reinterpreted
as a RawPacket with no length check; an invalid header drops the packet
with a warning; the wraparound scan splits the 24 firings; a first sweep
is never emitted; a wraparound in the accumulating state closes the
current sweep mid-packet and opens the next one from the same packet. -/
def packetCallback (env : Env) (s : DecoderState) (data : Buffer) : StepResult :=
  let raw_packet := readPacket data
  if checkPacketValidity raw_packet = true then
    let firings : ℕ → Firing := decodeFiring raw_packet
    let scanned := scanFrom (fun i => (firings i).firing_azimuth) s.last_azimuth
    let new_sweep_start := scanned.1
    if s.is_first_sweep = true ∧ new_sweep_start = FIRINGS_PER_PACKET then
      ⟨{ s with last_azimuth := scanned.2 }, [], false⟩
    else
      let start_fir_idx := if s.is_first_sweep = true then new_sweep_start else 0
      let end_fir_idx := if s.is_first_sweep = true then FIRINGS_PER_PACKET else new_sweep_start
      let s1 : DecoderState := { s with is_first_sweep := false, last_azimuth := scanned.2 }
      let s2 := appendSegment env firings start_fir_idx end_fir_idx s1
      if end_fir_idx ≠ FIRINGS_PER_PACKET then
        let s3 : DecoderState :=
          { s2 with
            sweep_data := emptySweep
            packet_start_time := 0
            last_azimuth := (firings (FIRINGS_PER_PACKET - 1)).firing_azimuth }
        let s4 := appendSegment env firings end_fir_idx FIRINGS_PER_PACKET s3
        ⟨s4, [s2.sweep_data], false⟩
      else ⟨s2, [], false⟩
  else ⟨s, [], true⟩

/-- Delivering a sequence of packets in order, collecting every emitted
sweep. -/
def feedAll (env : Env) (s : DecoderState) : List Buffer → DecoderState × List Sweep
  | [] => (s, [])
  | data :: rest =>
    let r := packetCallback env s data
    let rr := feedAll env r.state rest
    (rr.1, r.sweeps ++ rr.2)

/-- loadParameters (source lines 35-40), over an abstract option lookup
(values in meters, as in the source): each call stores the option's
value, or the given default, into the named member.  The third call
stores the frequency option into the max_range member, overwriting the
second call (the source passes max_range as the storage location for
frequency).  The returned pair is (min_range, max_range). -/
def loadParameters (opts : String → Option ℚ) : ℚ × ℚ :=
  let min_range := (opts "min_range").getD (1 / 2)
  let max_range := (opts "max_range").getD 100
  let max_range := (opts "frequency").getD 20
  (min_range, max_range)

/-- Sweep invariant: every point's recorded distance lies within the
configured range. -/
def GoodSweep (env : Env) (sw : Sweep) : Prop :=
  ∀ (ch : Fin 16) (p : Point), p ∈ sw ch →
    env.min_range ≤ p.distance ∧ p.distance ≤ env.max_range

/-- The 24 firing azimuths a delivered buffer decodes to. -/
def packetAzimuth (bs : Buffer) (i : ℕ) : ℤ :=
  firingAzimuth (readPacket bs) i

/-- The azimuth chain starting from a last azimuth never decreases:
the first firing is at least the last azimuth, and successive firings
never decrease. -/
def azChainMono (la : ℤ) (az : ℕ → ℤ) : Prop :=
  la ≤ az 0 ∧ ∀ i, i < FIRINGS_PER_PACKET - 1 → az i ≤ az (i + 1)

instance (la : ℤ) (az : ℕ → ℤ) : Decidable (azChainMono la az) :=
  inferInstanceAs (Decidable (_ ∧ _))

/-- A stream of buffers whose firing azimuths, chained through the last
azimuth of each packet, never decrease. -/
def monoStream (la : ℤ) : List Buffer → Prop
  | [] => True
  | bs :: rest =>
      azChainMono la (packetAzimuth bs) ∧
      monoStream (packetAzimuth bs (FIRINGS_PER_PACKET - 1)) rest

/-- Written from the words of claim C6 (refinement comparison): the
interpolated azimuth with left and right interpolation values at indices
lf and rf and base value at index base: diff = az rf - az lf, with twoPi
added when negative; result az base + diff / 2, with twoPi subtracted
when it exceeds twoPi. -/
def specOddInterpolation (az : ℕ → ℤ) (lf rf base : ℕ) : ℤ :=
  let d0 := az rf - az lf
  let d := if d0 < 0 then d0 + twoPi else d0
  let v := az base + d / 2
  if v > twoPi then v - twoPi else v

/-
Concrete inputs used by witnesses and counterexamples: synthetic packets
whose block rotations realize the round-trip trace of the spec, with the
bank marker bytes 0xff 0xee, one in-range measurement (raw distance
0x3e8 = 1000, i.e. 2 m, intensity 7) in the first channel triplet of
each block, and zeros elsewhere.
-/

def mkBuffer (rots : List ℕ) : Buffer :=
  { size := PACKET_SIZE
    byte := fun i =>
      if i < BLOCK_SIZE * BLOCKS_PER_PACKET then
        let o := i % BLOCK_SIZE
        if o = 0 then 0xff
        else if o = 1 then 0xee
        else if o = 2 then rots.getD (i / BLOCK_SIZE) 0 % 256
        else if o = 3 then rots.getD (i / BLOCK_SIZE) 0 / 256
        else if o = 4 then 0xe8
        else if o = 5 then 3
        else if o = 6 then 7
        else 0
      else 0 }

/-- Packet 1 of the round-trip trace: block azimuths strictly increasing
from 10 to 350 degrees; all 24 firing azimuths are increasing and below
the full circle, so no wraparound occurs. -/
def p1B : Buffer :=
  mkBuffer [1000, 4500, 8000, 11500, 15000, 18500, 22000, 25500, 29000, 32000, 34000, 35000]

/-- Packet 2 of the round-trip trace: block azimuths continuing from
355 degrees and crossing 0 at block 4, hence at firing index 8. -/
def p2B : Buffer :=
  mkBuffer [35550, 35600, 35650, 35700, 50, 60, 70, 80, 90, 95, 98, 99]

/-- Packet 3 of the round-trip trace: all firing azimuths within
2 to 45 degrees. -/
def p3B : Buffer :=
  mkBuffer [200, 600, 1000, 1400, 1800, 2200, 2600, 3000, 3400, 3800, 4200, 4400]

/-- A packet that, against a last azimuth of 300 degrees, wraps at firing
index 2. -/
def p4B : Buffer :=
  mkBuffer [35000, 100, 200, 300, 400, 500, 600, 700, 800, 900, 1000, 1100]

/-- An all-zero buffer: every block header is 0, not the bank marker. -/
def zeroBuffer : Buffer :=
  { size := PACKET_SIZE, byte := fun _ => 0 }

/-- A delivered buffer of the wrong length (1207 bytes): its first 1206
bytes are packet 1. -/
def badSizeBuffer : Buffer :=
  { size := PACKET_SIZE + 1, byte := p1B.byte }

/-- A concrete environment for witnesses: min_range 250 (0.5 m in the
2 mm unit), max_range 50000 (100 m), trigonometry and altitude tables
instantiated arbitrarily. -/
def envW : Env :=
  { min_range := 250
    max_range := 50000
    sinA := fun _ => 0
    cosA := fun _ => 0
    sin_scan_altitude := fun _ => 0
    cos_scan_altitude := fun _ => 0 }

/-- A decoder mid-accumulation: not in the first sweep, last azimuth at
300 degrees, empty sweep buffer. -/
def accumStateW : DecoderState :=
  { is_first_sweep := false
    last_azimuth := 48 * 30000
    packet_start_time := 0
    sweep_data := emptySweep }

/-- A standalone firing used by the projection witness. -/
def f0W : Firing :=
  { firing_azimuth := 5
    azimuth := fun _ => 5
    distance := fun _ => 1000
    intensity := fun _ => 7 }

def frW : ℕ → Firing := fun _ => f0W

/-- The point the projection witness inspects. -/
def pW : Point := mkPoint envW f0W 0 (0 : Fin 16) 0

/-- The point the range-filter witness inspects: raw channel 0 of firing
8 of packet 2, the first point accumulated after the first wraparound. -/
def p8W : Point := mkPoint envW (decodeFiring (readPacket p2B) 8) 8 (0 : Fin 16) 0

set_option maxRecDepth 40000

/-- C4: a packet in which some block header differs from the bank marker
is dropped with a warning: the decoder state (is_first_sweep,
last_azimuth, packet_start_time and the sweep buffer) is returned
unchanged and no sweep is emitted. -/
theorem C4_invalid_header_drops_packet (env : Env) (s : DecoderState) (bs : Buffer)
    (hinv : checkPacketValidity (readPacket bs) = false) :
    packetCallback env s bs = ⟨s, [], true⟩ := by
  simp [packetCallback, hinv]

/-- Witness for C4: the all-zero buffer fails validation and is dropped
with the state unchanged. -/
theorem C4_invalid_header_drops_packet_witness :
    checkPacketValidity (readPacket zeroBuffer) = false ∧
    packetCallback envW initState zeroBuffer = ⟨initState, [], true⟩ :=
  ⟨by decide, C4_invalid_header_drops_packet envW initState zeroBuffer (by decide)⟩

/-- C10: a single decode call emits at most one sweep, whatever the
decoder state and the delivered buffer. -/
theorem C10_at_most_one_sweep_per_packet (env : Env) (s : DecoderState) (bs : Buffer) :
    (packetCallback env s bs).sweeps.length ≤ 1 := by
  unfold packetCallback
  dsimp only
  split_ifs <;> simp

/-- C2 (code defect): with every option left at its default, the loaded
max_range is 20, not 100, because the source stores the frequency option
into the max_range member (line 38); and a supplied frequency value f
makes max_range equal f.  Only the min_range default of 0.5 behaves as
the claim states. -/
theorem C2_frequency_overwrites_max_range :
    (loadParameters (fun _ => none)).1 = 1 / 2 ∧
    (loadParameters (fun _ => none)).2 = 20 ∧
    (loadParameters (fun nm => if nm = "frequency" then some 77 else none)).2 = 77 :=
  ⟨rfl, rfl, rfl⟩

/-- C3 (code defect): a delivered buffer of the wrong length (1207
bytes) is not rejected by any length check: the decoder reinterprets it,
decodes it in full and mutates its state (last_azimuth moves from 0 to
the packet's last firing azimuth), with no warning. -/
theorem C3_wrong_length_buffer_is_processed :
    badSizeBuffer.size ≠ PACKET_SIZE ∧
    (packetCallback envW initState badSizeBuffer).warned = false ∧
    (packetCallback envW initState badSizeBuffer).state.last_azimuth = 48 * 35500 ∧
    initState.last_azimuth = 0 := by
  refine ⟨by decide, ?_, ?_, rfl⟩ <;> decide

/-- C1 (code defect): in the round-trip trace, packets 1 and 2 emit
nothing and leave the open sweep holding packet 2's 8 in-range channel-0
points; decoding packet 3 then emits a sweep (the spurious flush caused
by last_azimuth not being reset to firing 23's azimuth in the
first-sweep wraparound branch) and leaves a state whose sweep holds only
packet 3's own 12 channel-0 points instead of appending them to the open
sweep. -/
theorem C1_packet3_emits_spurious_sweep :
    (feedAll envW initState [p1B, p2B]).2.length = 0 ∧
    ((feedAll envW initState [p1B, p2B]).1.sweep_data (0 : Fin 16)).length = 8 ∧
    (packetCallback envW (feedAll envW initState [p1B, p2B]).1 p3B).sweeps.length = 1 ∧
    ((packetCallback envW (feedAll envW initState [p1B, p2B]).1 p3B).state.sweep_data
      (0 : Fin 16)).length = 12 := by
  refine ⟨?_, ?_, ?_, ?_⟩ <;> decide

theorem firingAzimuth_of_even (p : RawPacket) (i : ℕ) (h : i % 2 = 0) :
    firingAzimuth p i = firingAzimuthEven p i := by
  simp [firingAzimuth, h]

/-- C6: the 24 firing azimuths are as specified: even firing 2i takes
block i's azimuth directly; odd firing j below 23 interpolates with left
and right values at j-1 and j+1 and base value at j-1; firing 23
interpolates with left and right values at firings 20 and 22 instead of
its natural neighbours (base value at 22). -/
theorem C6_azimuth_interpolation (p : RawPacket) :
    (∀ i, i < BLOCKS_PER_PACKET → firingAzimuth p (2 * i) = blockAzimuth p i) ∧
    (∀ j, j % 2 = 1 → j < FIRINGS_PER_PACKET - 1 →
      firingAzimuth p j =
        specOddInterpolation (firingAzimuth p) (j - 1) (j + 1) (j - 1)) ∧
    firingAzimuth p (FIRINGS_PER_PACKET - 1) =
      specOddInterpolation (firingAzimuth p) (FIRINGS_PER_PACKET - 4)
        (FIRINGS_PER_PACKET - 2) (FIRINGS_PER_PACKET - 2) := by
  refine ⟨?_, ?_, ?_⟩
  · intro i _
    rw [firingAzimuth_of_even p (2 * i) (by omega)]
    simp [firingAzimuthEven, Nat.mul_div_cancel_left i (by omega : 0 < 2)]
  · intro j hj hjlt
    have hne : j ≠ FIRINGS_PER_PACKET - 1 := Nat.ne_of_lt hjlt
    have hodd : ¬ j % 2 = 0 := by omega
    have hl : (j - 1) % 2 = 0 := by omega
    have hr : (j + 1) % 2 = 0 := by omega
    have hspec : specOddInterpolation (firingAzimuth p) (j - 1) (j + 1) (j - 1) =
        specOddInterpolation (firingAzimuthEven p) (j - 1) (j + 1) (j - 1) := by
      simp only [specOddInterpolation, firingAzimuth_of_even p (j - 1) hl,
        firingAzimuth_of_even p (j + 1) hr]
    rw [hspec]
    simp only [firingAzimuth, if_neg hodd, if_neg hne, specOddInterpolation]
  · show firingAzimuth p 23 = specOddInterpolation (firingAzimuth p) 20 22 22
    have hspec : specOddInterpolation (firingAzimuth p) 20 22 22 =
        specOddInterpolation (firingAzimuthEven p) 20 22 22 := by
      simp only [specOddInterpolation, firingAzimuth_of_even p 22 (by decide),
        firingAzimuth_of_even p 20 (by decide)]
    rw [hspec]
    have hodd : ¬ (23 : ℕ) % 2 = 0 := by decide
    have h23 : (23 : ℕ) = FIRINGS_PER_PACKET - 1 := by decide
    simp only [firingAzimuth, if_neg hodd, if_pos h23, specOddInterpolation]

/-- Witness for C6, on the decoded packet 1: firing 2 takes block 1's
azimuth and firing 1 is the interpolation with left, right and base
indices 0, 2, 0. -/
theorem C6_azimuth_interpolation_witness :
    firingAzimuth (readPacket p1B) (2 * 1) = blockAzimuth (readPacket p1B) 1 ∧
    firingAzimuth (readPacket p1B) 1 =
      specOddInterpolation (firingAzimuth (readPacket p1B)) 0 2 0 := by
  refine ⟨(C6_azimuth_interpolation (readPacket p1B)).1 1 (by decide), ?_⟩
  have h := (C6_azimuth_interpolation (readPacket p1B)).2.1 1 (by decide) (by decide)
  simpa using h

theorem mem_appendChannel (env : Env) (f : Firing) (i : ℕ) (pst : ℤ) (sw : Sweep)
    (c ch : Fin 16) (p : Point) (h : p ∈ appendChannel env f i pst sw c ch) :
    p ∈ sw ch ∨
      (ch = remapChannel c ∧ isPointInRange env (f.distance c) = true ∧
        p = mkPoint env f i c pst) := by
  unfold appendChannel at h
  by_cases hr : isPointInRange env (f.distance c) = true
  · rw [if_pos hr] at h
    by_cases hch : ch = remapChannel c
    · subst hch
      rw [Function.update_same] at h
      rcases List.mem_append.mp h with h1 | h1
      · exact Or.inl h1
      · exact Or.inr ⟨rfl, hr, List.mem_singleton.mp h1⟩
    · rw [Function.update_noteq hch] at h
      exact Or.inl h
  · rw [if_neg hr] at h
    exact Or.inl h

theorem mem_foldl_appendChannel (env : Env) (f : Firing) (i : ℕ) (pst : ℤ) :
    ∀ (l : List (Fin 16)) (sw : Sweep) (ch : Fin 16) (p : Point),
      p ∈ l.foldl (appendChannel env f i pst) sw ch →
      p ∈ sw ch ∨ ∃ c : Fin 16,
        ch = remapChannel c ∧ isPointInRange env (f.distance c) = true ∧
          p = mkPoint env f i c pst
  | [], _, _, _, h => Or.inl h
  | c :: l, sw, ch, p, h => by
    rcases mem_foldl_appendChannel env f i pst l (appendChannel env f i pst sw c) ch p h with
      h1 | h1
    · rcases mem_appendChannel env f i pst sw c ch p h1 with h2 | h2
      · exact Or.inl h2
      · exact Or.inr ⟨c, h2⟩
    · exact Or.inr h1

theorem mem_appendFiring (env : Env) (f : Firing) (i : ℕ) (pst : ℤ) (sw : Sweep)
    (ch : Fin 16) (p : Point) (h : p ∈ appendFiring env f i pst sw ch) :
    p ∈ sw ch ∨ ∃ c : Fin 16,
      ch = remapChannel c ∧ isPointInRange env (f.distance c) = true ∧
        p = mkPoint env f i c pst :=
  mem_foldl_appendChannel env f i pst (List.finRange 16) sw ch p h

theorem mem_foldl_appendFiring (env : Env) (fr : ℕ → Firing) (pst : ℤ) :
    ∀ (L : List ℕ) (sw : Sweep) (ch : Fin 16) (p : Point),
      p ∈ L.foldl (fun acc i => appendFiring env (fr i) i pst acc) sw ch →
      p ∈ sw ch ∨ ∃ i ∈ L, ∃ c : Fin 16,
        ch = remapChannel c ∧ isPointInRange env ((fr i).distance c) = true ∧
          p = mkPoint env (fr i) i c pst
  | [], _, _, _, h => Or.inl h
  | i :: L, sw, ch, p, h => by
    rcases mem_foldl_appendFiring env fr pst L (appendFiring env (fr i) i pst sw) ch p h with
      h1 | ⟨j, hj, hrest⟩
    · rcases mem_appendFiring env (fr i) i pst sw ch p h1 with h2 | h2
      · exact Or.inl h2
      · exact Or.inr ⟨i, List.mem_cons_self i L, h2⟩
    · exact Or.inr ⟨j, List.mem_cons_of_mem i hj, hrest⟩

theorem mem_appendPoints (env : Env) (fr : ℕ → Firing) (a b : ℕ) (pst : ℤ) (sw : Sweep)
    (ch : Fin 16) (p : Point) (h : p ∈ appendPoints env fr a b pst sw ch) :
    p ∈ sw ch ∨ ∃ i, a ≤ i ∧ i < a + (b - a) ∧ ∃ c : Fin 16,
      ch = remapChannel c ∧ isPointInRange env ((fr i).distance c) = true ∧
        p = mkPoint env (fr i) i c pst := by
  rcases mem_foldl_appendFiring env fr pst (List.range' a (b - a)) sw ch p h with
    h1 | ⟨i, hi, hrest⟩
  · exact Or.inl h1
  · rcases List.mem_range'.mp hi with ⟨j, hj, rfl⟩
    exact Or.inr ⟨a + 1 * j, by omega, by omega, hrest⟩

/-- C7: every point the decoder appends to a sweep (any segment of any
packet) has the specified shape: its output coordinates are the fixed
axis remap x := y, y := -x, z := z of the native projection of distance,
scan altitude and channel azimuth, and its timestamp is the packet start
time plus firing index times FIRING_TOFFSET plus channel index times
DSR_TOFFSET. -/
theorem C7_point_projection (env : Env) (fr : ℕ → Firing) (a b : ℕ) (pst : ℤ)
    (sw : Sweep) (ch : Fin 16) (p : Point) (hab : a ≤ b)
    (hmem : p ∈ appendPoints env fr a b pst sw ch) (hnew : p ∉ sw ch) :
    ∃ i, a ≤ i ∧ i < b ∧ ∃ c : Fin 16,
      ch = remapChannel c ∧
      isPointInRange env ((fr i).distance c) = true ∧
      p.time = pst + FIRING_TOFFSET * (i : ℤ) + DSR_TOFFSET * (c.val : ℤ) ∧
      p.x = (fr i).distance c * env.cos_scan_altitude c * env.cosA ((fr i).azimuth c) ∧
      p.y = -((fr i).distance c * env.cos_scan_altitude c * env.sinA ((fr i).azimuth c)) ∧
      p.z = (fr i).distance c * env.sin_scan_altitude c ∧
      p.azimuth = (fr i).azimuth c ∧
      p.distance = (fr i).distance c ∧
      p.intensity = (fr i).intensity c := by
  rcases mem_appendPoints env fr a b pst sw ch p hmem with h1 | ⟨i, hia, hib, c, hch, hr, hp⟩
  · exact absurd h1 hnew
  · refine ⟨i, hia, by omega, c, hch, hr, ?_⟩
    subst hp
    simp [mkPoint]

/-- Witness for C7: the single point appended for raw channel 0 of a
concrete firing lands in physical channel 0 with the projected shape. -/
theorem C7_point_projection_witness :
    (0 : ℕ) ≤ 1 ∧
    pW ∈ appendPoints envW frW 0 1 0 emptySweep (0 : Fin 16) ∧
    pW ∉ emptySweep (0 : Fin 16) ∧
    (∃ i, 0 ≤ i ∧ i < 1 ∧ ∃ c : Fin 16,
      (0 : Fin 16) = remapChannel c ∧
      isPointInRange envW ((frW i).distance c) = true ∧
      pW.time = 0 + FIRING_TOFFSET * (i : ℤ) + DSR_TOFFSET * (c.val : ℤ) ∧
      pW.x = (frW i).distance c * envW.cos_scan_altitude c * envW.cosA ((frW i).azimuth c) ∧
      pW.y = -((frW i).distance c * envW.cos_scan_altitude c * envW.sinA ((frW i).azimuth c)) ∧
      pW.z = (frW i).distance c * envW.sin_scan_altitude c ∧
      pW.azimuth = (frW i).azimuth c ∧
      pW.distance = (frW i).distance c ∧
      pW.intensity = (frW i).intensity c) :=
  ⟨by decide, by decide, by decide,
    C7_point_projection envW frW 0 1 0 emptySweep (0 : Fin 16) pW (by decide)
      (by decide) (by decide)⟩

theorem isPointInRange_iff (env : Env) (d : ℤ) :
    isPointInRange env d = true ↔ env.min_range ≤ d ∧ d ≤ env.max_range := by
  simp [isPointInRange]

theorem goodSweep_empty (env : Env) : GoodSweep env emptySweep := by
  intro ch p h
  simp [emptySweep] at h

theorem goodSweep_appendPoints (env : Env) (fr : ℕ → Firing) (a b : ℕ) (pst : ℤ)
    (sw : Sweep) (hs : GoodSweep env sw) :
    GoodSweep env (appendPoints env fr a b pst sw) := by
  intro ch p hp
  rcases mem_appendPoints env fr a b pst sw ch p hp with h1 | ⟨i, _, _, c, _, hr, hpeq⟩
  · exact hs ch p h1
  · have hd := (isPointInRange_iff env ((fr i).distance c)).mp hr
    subst hpeq
    simpa [mkPoint] using hd

theorem goodSweep_step (env : Env) (s : DecoderState) (bs : Buffer)
    (hs : GoodSweep env s.sweep_data) :
    GoodSweep env (packetCallback env s bs).state.sweep_data ∧
      ∀ sw ∈ (packetCallback env s bs).sweeps, GoodSweep env sw := by
  unfold packetCallback appendSegment
  dsimp only
  split_ifs with h1 h2 h3 h4 h5
  · exact ⟨hs, by simp⟩
  · exact absurd rfl h4
  · exact ⟨goodSweep_appendPoints env _ _ _ _ _ hs, by simp⟩
  · constructor
    · exact goodSweep_appendPoints env _ _ _ _ _ (goodSweep_empty env)
    · intro sw hsw
      simp only [List.mem_singleton] at hsw
      subst hsw
      exact goodSweep_appendPoints env _ _ _ _ _ hs
  · exact ⟨goodSweep_appendPoints env _ _ _ _ _ hs, by simp⟩
  · exact ⟨hs, by simp⟩

theorem feedAll_good (env : Env) :
    ∀ (pss : List Buffer) (s : DecoderState), GoodSweep env s.sweep_data →
      GoodSweep env (feedAll env s pss).1.sweep_data ∧
        ∀ sw ∈ (feedAll env s pss).2, GoodSweep env sw
  | [], s, hs => ⟨hs, by simp [feedAll]⟩
  | bs :: rest, s, hs => by
    have hstep := goodSweep_step env s bs hs
    have hrest := feedAll_good env rest (packetCallback env s bs).state hstep.1
    refine ⟨by simpa [feedAll] using hrest.1, ?_⟩
    intro sw hsw
    simp only [feedAll, List.mem_append] at hsw
    rcases hsw with h | h
    · exact hstep.2 sw h
    · exact hrest.2 sw h

/-- C8: starting from a freshly constructed decoder, for any delivered
packet sequence, every point of every emitted sweep has its distance
within the configured range: out-of-range measurements are skipped per
point and never appear. -/
theorem C8_emitted_points_in_range (env : Env) (pss : List Buffer) (n : ℕ)
    (ch : Fin 16) (p : Point)
    (hp : p ∈ ((feedAll env initState pss).2.getD n emptySweep) ch) :
    env.min_range ≤ p.distance ∧ p.distance ≤ env.max_range := by
  have hgood := (feedAll_good env pss initState (goodSweep_empty env)).2
  by_cases hlen : n < (feedAll env initState pss).2.length
  · refine hgood _ ?_ ch p hp
    rw [List.getD_eq_getElem?_getD, List.getElem?_eq_getElem hlen, Option.getD_some]
    exact List.getElem_mem hlen
  · rw [List.getD_eq_getElem?_getD, List.getElem?_eq_none (by omega), Option.getD_none] at hp
    simp [emptySweep] at hp

/-- Witness for C8: the first accumulated point of packet 2 appears in
the sweep emitted while decoding packet 3, and its distance (raw 1000,
2 m) lies within the configured range. -/
theorem C8_emitted_points_in_range_witness :
    p8W ∈ ((feedAll envW initState [p2B, p3B]).2.getD 0 emptySweep) (0 : Fin 16) ∧
    (envW.min_range ≤ p8W.distance ∧ p8W.distance ≤ envW.max_range) :=
  ⟨by decide, C8_emitted_points_in_range envW [p2B, p3B] 0 (0 : Fin 16) p8W (by decide)⟩

theorem scanGo_of_mono (az : ℕ → ℤ) :
    ∀ (fuel i : ℕ) (la : ℤ), i < FIRINGS_PER_PACKET → FIRINGS_PER_PACKET - i ≤ fuel →
      la ≤ az i → (∀ j, i ≤ j → j + 1 < FIRINGS_PER_PACKET → az j ≤ az (j + 1)) →
      scanGo az fuel i la = (FIRINGS_PER_PACKET, az (FIRINGS_PER_PACKET - 1))
  | 0, i, la, hi, hfuel, _, _ => absurd hfuel (by omega)
  | fuel + 1, i, la, hi, hfuel, hla, hchain => by
    unfold scanGo
    rw [if_neg (not_lt.mpr hla)]
    by_cases hnext : i + 1 < FIRINGS_PER_PACKET
    · rw [if_pos hnext]
      exact scanGo_of_mono az fuel (i + 1) (az i) hnext (by omega)
        (hchain i le_rfl hnext) (fun j hj => hchain j (by omega))
    · rw [if_neg hnext]
      have h1 : i + 1 = FIRINGS_PER_PACKET := by omega
      have h2 : i = FIRINGS_PER_PACKET - 1 := by omega
      rw [h1, h2]

theorem scanFrom_of_mono (az : ℕ → ℤ) (la : ℤ) (h : azChainMono la az) :
    scanFrom az la = (FIRINGS_PER_PACKET, az (FIRINGS_PER_PACKET - 1)) := by
  refine scanGo_of_mono az FIRINGS_PER_PACKET 0 la (by decide) (by decide) h.1 ?_
  intro j _ hj
  exact h.2 j (by omega)

theorem packetCallback_first_nowrap (env : Env) (s : DecoderState) (bs : Buffer) (la1 : ℤ)
    (hf : s.is_first_sweep = true)
    (hv : checkPacketValidity (readPacket bs) = true)
    (hscan : scanFrom (fun i => (decodeFiring (readPacket bs) i).firing_azimuth)
      s.last_azimuth = (FIRINGS_PER_PACKET, la1)) :
    packetCallback env s bs = ⟨{ s with last_azimuth := la1 }, [], false⟩ := by
  unfold packetCallback
  dsimp only
  rw [hv, if_pos rfl, hscan]
  rw [if_pos ⟨hf, rfl⟩]

/-- C9: from the AwaitingFirstRevolution state, a sequence of valid
packets whose firing azimuths never decrease (chained through the last
azimuth) emits no sweep, appends no point, and leaves the decoder in
AwaitingFirstRevolution. -/
theorem C9_awaiting_first_revolution_stays (env : Env) :
    ∀ (pss : List Buffer) (s : DecoderState), s.is_first_sweep = true →
      (∀ bs ∈ pss, checkPacketValidity (readPacket bs) = true) →
      monoStream s.last_azimuth pss →
      (feedAll env s pss).1.is_first_sweep = true ∧
        (feedAll env s pss).1.sweep_data = s.sweep_data ∧
        (feedAll env s pss).2 = []
  | [], s, hf, _, _ => ⟨hf, rfl, rfl⟩
  | bs :: rest, s, hf, hv, hm => by
    have hscan : scanFrom (fun i => (decodeFiring (readPacket bs) i).firing_azimuth)
        s.last_azimuth = (FIRINGS_PER_PACKET, packetAzimuth bs (FIRINGS_PER_PACKET - 1)) :=
      scanFrom_of_mono (packetAzimuth bs) s.last_azimuth hm.1
    have hstep := packetCallback_first_nowrap env s bs
      (packetAzimuth bs (FIRINGS_PER_PACKET - 1)) hf (hv bs (List.mem_cons_self bs rest)) hscan
    have hrest := C9_awaiting_first_revolution_stays env rest
      { s with last_azimuth := packetAzimuth bs (FIRINGS_PER_PACKET - 1) }
      hf (fun b hb => hv b (List.mem_cons_of_mem bs hb)) hm.2
    simp only [feedAll, hstep]
    exact ⟨hrest.1, hrest.2.1, by simpa using hrest.2.2⟩

/-- Witness for C9: packet 1, whose azimuths rise from 10 to 355 degrees,
leaves a fresh decoder awaiting the first revolution with nothing
accumulated and nothing emitted. -/
theorem C9_awaiting_first_revolution_stays_witness :
    monoStream initState.last_azimuth [p1B] ∧
    ((feedAll envW initState [p1B]).1.is_first_sweep = true ∧
      (feedAll envW initState [p1B]).1.sweep_data = initState.sweep_data ∧
      (feedAll envW initState [p1B]).2 = []) := by
  have hm : monoStream initState.last_azimuth [p1B] := ⟨by decide, trivial⟩
  exact ⟨hm, C9_awaiting_first_revolution_stays envW [p1B] initState rfl
    (by intro bs hbs; simp only [List.mem_singleton] at hbs; subst hbs; decide) hm⟩

/-- C5: a valid packet decoded while accumulating, with the first
azimuth decrease at firing k (0 < k < 24), closes the current sweep with
the in-range points of firings [0, k) appended at the running packet
start time, emits exactly that sweep, clears the buffer, resets
packet_start_time, sets last_azimuth to firing 23's azimuth, and
accumulates firings [k, 24) into the new sweep in the same call, with
packet_start_time finally advanced by FIRING_TOFFSET times the length of
the second segment (each segment advance happens after the segment; the
first advance is then overwritten by the reset). -/
theorem C5_accumulating_wrap_splits_packet (env : Env) (s : DecoderState) (bs : Buffer)
    (k : ℕ) (la1 : ℤ)
    (hf : s.is_first_sweep = false)
    (hv : checkPacketValidity (readPacket bs) = true)
    (hscan : scanFrom (fun i => (decodeFiring (readPacket bs) i).firing_azimuth)
      s.last_azimuth = (k, la1))
    (h0 : 0 < k) (hk : k < FIRINGS_PER_PACKET) :
    packetCallback env s bs =
      ⟨{ is_first_sweep := false
         last_azimuth := firingAzimuth (readPacket bs) (FIRINGS_PER_PACKET - 1)
         packet_start_time := FIRING_TOFFSET * ((FIRINGS_PER_PACKET - k : ℕ) : ℤ)
         sweep_data := appendPoints env (decodeFiring (readPacket bs)) k FIRINGS_PER_PACKET 0
           emptySweep },
       [appendPoints env (decodeFiring (readPacket bs)) 0 k s.packet_start_time s.sweep_data],
       false⟩ := by
  have hne : k ≠ FIRINGS_PER_PACKET := Nat.ne_of_lt hk
  unfold packetCallback appendSegment
  dsimp only
  rw [hv, if_pos rfl, hscan]
  simp [hf, hne, decodeFiring]

/-- Witness for C5: a packet wrapping at firing 2 against a decoder
accumulating at 300 degrees splits into the emitted old sweep plus a new
sweep of firings 2 to 23. -/
theorem C5_accumulating_wrap_splits_packet_witness :
    accumStateW.is_first_sweep = false ∧ 0 < 2 ∧ 2 < FIRINGS_PER_PACKET ∧
    packetCallback envW accumStateW p4B =
      ⟨{ is_first_sweep := false
         last_azimuth := firingAzimuth (readPacket p4B) (FIRINGS_PER_PACKET - 1)
         packet_start_time := FIRING_TOFFSET * ((FIRINGS_PER_PACKET - 2 : ℕ) : ℤ)
         sweep_data := appendPoints envW (decodeFiring (readPacket p4B)) 2 FIRINGS_PER_PACKET 0
           emptySweep },
       [appendPoints envW (decodeFiring (readPacket p4B)) 0 2 accumStateW.packet_start_time
         accumStateW.sweep_data],
       false⟩ :=
  ⟨rfl, by decide, by decide,
    C5_accumulating_wrap_splits_packet envW accumStateW p4B 2 (48 * 35550) rfl
      (by decide) (by decide) (by decide) (by decide)⟩

end VelodynePuck
